import Mathlib

/-
Verification development for the requirement/condition core of a
constraint-based dependency resolver (src/requirement.rs).

The Rust code is shallowly embedded: interned identifiers become
Nat-indexed value structures, the two enums become inductives, iterators
become lists, and the Interner trait (defined outside this file's source,
described by the spec's external-interface section) becomes a structure of
lookup functions. The partial conversion Condition -> VersionSetId, which
panics on the Extra variant, is modelled with Option: none is the
panic path.
-/

namespace Resolvo

/-- Opaque handle for an interned version set, ordered by its index. -/
structure VersionSetId where
  id : Nat
deriving DecidableEq, Repr

/-- Opaque handle for an interned union of version sets. -/
structure VersionSetUnionId where
  id : Nat
deriving DecidableEq, Repr

/-- Opaque handle for an interned string. -/
structure StringId where
  id : Nat
deriving DecidableEq, Repr

/-- Rust default for VersionSetId is the zero index. -/
instance : Inhabited VersionSetId := ⟨⟨0⟩⟩

/-- Condition enum from src/requirement.rs: either a version-set
condition or an extra (optional feature) condition. -/
inductive Condition where
  | versionSetId (v : VersionSetId)
  | extra (s : StringId)
deriving DecidableEq, Repr

/-- From VersionSetId for Condition. -/
def Condition.fromVersionSetId (v : VersionSetId) : Condition :=
  Condition.versionSetId v

/-- From StringId for Condition. -/
def Condition.fromStringId (s : StringId) : Condition :=
  Condition.extra s

/-- From Condition for VersionSetId: matches on the tag; the Extra arm
panics in the source, modelled here as none. -/
def Condition.toVersionSetId : Condition → Option VersionSetId
  | Condition.versionSetId i => some i
  | Condition.extra _ => none

/-- Requirement enum from src/requirement.rs: a single version set or a
union (logical OR) of version sets. -/
inductive Requirement where
  | single (v : VersionSetId)
  | union (u : VersionSetUnionId)
deriving DecidableEq, Repr

/-- Default for Requirement: Single over the default VersionSetId. -/
instance : Inhabited Requirement := ⟨Requirement.single default⟩

/-- From VersionSetId for Requirement. -/
def Requirement.fromVersionSetId (v : VersionSetId) : Requirement :=
  Requirement.single v

/-- From VersionSetUnionId for Requirement. -/
def Requirement.fromVersionSetUnionId (u : VersionSetUnionId) : Requirement :=
  Requirement.union u

/-- Modelled from the spec: the Interner capability (the trait itself is
defined outside src/requirement.rs). It provides the ordered membership
of a union and the name/constraint rendering lookups, exactly the four
operations the spec's external-interface section lists. -/
structure Interner where
  version_sets_in_union : VersionSetUnionId → List VersionSetId
  version_set_name : VersionSetId → StringId
  display_name : StringId → String
  display_version_set : VersionSetId → String

/-- Requirement::version_sets: Single yields the one-element sequence,
Union forwards the interner's membership sequence unchanged. -/
def Requirement.version_sets (r : Requirement) (interner : Interner) :
    List VersionSetId :=
  match r with
  | Requirement.single version_set => [version_set]
  | Requirement.union version_set_union =>
      interner.version_sets_in_union version_set_union

/-- Per-member rendering used by DisplayRequirement: package name, one
space, then the constraint text. -/
def displayMember (interner : Interner) (version_set : VersionSetId) : String :=
  interner.display_name (interner.version_set_name version_set)
    ++ " " ++ interner.display_version_set version_set

/-- Display for DisplayRequirement: Single renders its one member; Union
renders every member in stored order joined with a vertical-bar
separator. -/
def Requirement.displayString (r : Requirement) (interner : Interner) : String :=
  match r with
  | Requirement.single version_set => displayMember interner version_set
  | Requirement.union version_set_union =>
      String.intercalate " | "
        ((interner.version_sets_in_union version_set_union).map
          (displayMember interner))

/-- ConditionalRequirement struct: a condition sequence and the gated
requirement, both public fields. -/
structure ConditionalRequirement where
  conditions : List Condition
  requirement : Requirement
deriving DecidableEq, Repr

/-- ConditionalRequirement::new: plain constructor storing both fields. -/
def ConditionalRequirement.new (conditions : List Condition)
    (requirement : Requirement) : ConditionalRequirement :=
  ⟨conditions, requirement⟩

/-- ConditionalRequirement::requirement_version_sets: delegates to the
inner requirement's expansion. -/
def ConditionalRequirement.requirement_version_sets
    (c : ConditionalRequirement) (interner : Interner) : List VersionSetId :=
  c.requirement.version_sets interner

/-- ConditionalRequirement::version_sets_with_condition: pairs each
expanded version set with a clone of the full condition sequence. -/
def ConditionalRequirement.version_sets_with_condition
    (c : ConditionalRequirement) (interner : Interner) :
    List (VersionSetId × List Condition) :=
  (c.requirement.version_sets interner).map (fun vs => (vs, c.conditions))

/-- ConditionalRequirement::into_condition_and_requirement: returns the
two fields by value. -/
def ConditionalRequirement.into_condition_and_requirement
    (c : ConditionalRequirement) : List Condition × Requirement :=
  (c.conditions, c.requirement)

/-- From Requirement for ConditionalRequirement: empty conditions. -/
def ConditionalRequirement.fromRequirement (r : Requirement) :
    ConditionalRequirement :=
  ⟨[], r⟩

/-- From VersionSetId for ConditionalRequirement: empty conditions and
Single of the given id (via the Requirement conversion). -/
def ConditionalRequirement.fromVersionSetId (v : VersionSetId) :
    ConditionalRequirement :=
  ⟨[], Requirement.fromVersionSetId v⟩

/-- From VersionSetUnionId for ConditionalRequirement: empty conditions
and Union of the given id (via the Requirement conversion). -/
def ConditionalRequirement.fromVersionSetUnionId (u : VersionSetUnionId) :
    ConditionalRequirement :=
  ⟨[], Requirement.fromVersionSetUnionId u⟩

/-- From a (VersionSetId, conditions) pair for ConditionalRequirement:
the supplied conditions and Single of the given id. -/
def ConditionalRequirement.fromPair
    (p : VersionSetId × List Condition) : ConditionalRequirement :=
  ⟨p.2, Requirement.fromVersionSetId p.1⟩

/-- Model of the data stream the derived Hash impl feeds to a hasher for
a Condition: the variant discriminant followed by the field index. -/
def Condition.hashStream : Condition → List Nat
  | Condition.versionSetId v => [0, v.id]
  | Condition.extra s => [1, s.id]

/-- Model of the data stream the derived Hash impl feeds for a
Requirement: discriminant then field index. -/
def Requirement.hashStream : Requirement → List Nat
  | Requirement.single v => [0, v.id]
  | Requirement.union u => [1, u.id]

/-- Model of the data stream the derived Hash impl feeds for a
ConditionalRequirement: the condition sequence hashed as a length prefix
followed by each element in order, then the requirement. -/
def ConditionalRequirement.hashStream (c : ConditionalRequirement) :
    List Nat :=
  c.conditions.length ::
    ((c.conditions.map Condition.hashStream).flatten
      ++ c.requirement.hashStream)

/-- C1: expanding a union requirement forwards the interner's membership
sequence for that union unchanged and in the same order, with no
re-sorting, filtering or duplication. -/
theorem union_expansion_forwards_interner
    (u : VersionSetUnionId) (interner : Interner) :
    (Requirement.union u).version_sets interner =
      interner.version_sets_in_union u := rfl

/-- C2: version_sets_with_condition yields pairs whose first components
are exactly the sequence requirement_version_sets yields, in the same
order, and whose second component is always the full condition sequence
of the object. -/
theorem version_sets_with_condition_pairs
    (c : ConditionalRequirement) (interner : Interner) :
    (c.version_sets_with_condition interner).map Prod.fst =
        c.requirement_version_sets interner ∧
      ∀ p ∈ c.version_sets_with_condition interner, p.2 = c.conditions := by
  constructor
  · have hcomp :
        (Prod.fst ∘ fun vs : VersionSetId => (vs, c.conditions)) = id := rfl
    simp [ConditionalRequirement.version_sets_with_condition,
      ConditionalRequirement.requirement_version_sets,
      List.map_map, hcomp]
  · intro p hp
    simp only [ConditionalRequirement.version_sets_with_condition,
      List.mem_map] at hp
    obtain ⟨vs, _, hvs⟩ := hp
    simp [← hvs]

/-- C3: expanding a single requirement yields exactly the one-element
sequence holding its version set id. -/
theorem single_expansion (v : VersionSetId) (interner : Interner) :
    (Requirement.single v).version_sets interner = [v] := rfl

/-- C4: converting an extra condition to a VersionSetId takes the fatal
panic path, modelled as none; it never produces a value, in particular
never the default/zero id. -/
theorem extra_conversion_is_fatal (s : StringId) :
    (Condition.extra s).toVersionSetId = none ∧
      ∀ v : VersionSetId, (Condition.extra s).toVersionSetId ≠ some v := by
  exact ⟨rfl, fun v h => Option.noConfusion h⟩

/-- C5: converting a VersionSetId to a Condition and back succeeds and
is the identity. -/
theorem version_set_id_condition_roundtrip (v : VersionSetId) :
    (Condition.fromVersionSetId v).toVersionSetId = some v := rfl

/-- C6: every implicit conversion into ConditionalRequirement routes
through the empty-or-supplied condition sequence: a bare Requirement,
VersionSetId or VersionSetUnionId gives empty conditions with the
corresponding requirement, and a (VersionSetId, conditions) pair gives
Single of that id with exactly the supplied conditions. -/
theorem conditional_requirement_conversions
    (r : Requirement) (v : VersionSetId) (u : VersionSetUnionId)
    (conds : List Condition) :
    ConditionalRequirement.fromRequirement r = ⟨[], r⟩ ∧
      ConditionalRequirement.fromVersionSetId v =
        ⟨[], Requirement.single v⟩ ∧
      ConditionalRequirement.fromVersionSetUnionId u =
        ⟨[], Requirement.union u⟩ ∧
      ConditionalRequirement.fromPair (v, conds) =
        ⟨conds, Requirement.single v⟩ :=
  ⟨rfl, rfl, rfl, rfl⟩

/-- C7: a single requirement renders as the display name of its version
set's package name, a space, then the rendered version set; a union
renders every member that same way in stored order, joined with the
vertical-bar separator. -/
theorem display_rendering
    (v : VersionSetId) (u : VersionSetUnionId) (interner : Interner) :
    (Requirement.single v).displayString interner =
        interner.display_name (interner.version_set_name v) ++ " "
          ++ interner.display_version_set v ∧
      (Requirement.union u).displayString interner =
        String.intercalate " | "
          ((interner.version_sets_in_union u).map
            (fun w => (Requirement.single w).displayString interner)) :=
  ⟨rfl, rfl⟩

/-- C8: decomposing a ConditionalRequirement built by new recovers the
constructor inputs field for field; new validates and normalizes
nothing, accepting an empty condition sequence. -/
theorem new_decomposition_roundtrip
    (conds : List Condition) (req : Requirement) :
    (ConditionalRequirement.new conds req).into_condition_and_requirement
        = (conds, req) ∧
      (ConditionalRequirement.new [] req).conditions = [] :=
  ⟨rfl, rfl⟩

/-- C9: expansion is deterministic and restartable: it is a pure
function of the requirement and the interner's union-membership lookup,
so two calls against interners that agree on version_sets_in_union (in
particular, two calls against the same interner) yield identical
sequences, and likewise for requirement_version_sets. -/
theorem expansion_restartable_deterministic
    (r : Requirement) (c : ConditionalRequirement) (i1 i2 : Interner)
    (h : i1.version_sets_in_union = i2.version_sets_in_union) :
    r.version_sets i1 = r.version_sets i2 ∧
      c.requirement_version_sets i1 = c.requirement_version_sets i2 := by
  constructor
  · cases r with
    | single v => rfl
    | union u =>
        simp [Requirement.version_sets, h]
  · unfold ConditionalRequirement.requirement_version_sets
    cases c.requirement with
    | single v => rfl
    | union u =>
        simp [Requirement.version_sets, h]

/-- Witness for C9 at concrete interners that share the union-membership
lookup but differ in every display field. -/
theorem expansion_restartable_deterministic_witness :
    (Requirement.union ⟨0⟩).version_sets
        ⟨fun _ => [⟨1⟩, ⟨2⟩], fun _ => ⟨0⟩, fun _ => "a", fun _ => "x"⟩ =
      (Requirement.union ⟨0⟩).version_sets
        ⟨fun _ => [⟨1⟩, ⟨2⟩], fun _ => ⟨7⟩, fun _ => "b", fun _ => "y"⟩ ∧
    (ConditionalRequirement.new [] (Requirement.union ⟨0⟩)
        ).requirement_version_sets
        ⟨fun _ => [⟨1⟩, ⟨2⟩], fun _ => ⟨0⟩, fun _ => "a", fun _ => "x"⟩ =
      (ConditionalRequirement.new [] (Requirement.union ⟨0⟩)
          ).requirement_version_sets
        ⟨fun _ => [⟨1⟩, ⟨2⟩], fun _ => ⟨7⟩, fun _ => "b", fun _ => "y"⟩ :=
  expansion_restartable_deterministic (Requirement.union ⟨0⟩)
    (ConditionalRequirement.new [] (Requirement.union ⟨0⟩))
    ⟨fun _ => [⟨1⟩, ⟨2⟩], fun _ => ⟨0⟩, fun _ => "a", fun _ => "x"⟩
    ⟨fun _ => [⟨1⟩, ⟨2⟩], fun _ => ⟨7⟩, fun _ => "b", fun _ => "y"⟩
    rfl

/-- C10: the derived structural equality and hash of
ConditionalRequirement are order-sensitive on the condition sequence:
two values with the same requirement and the same multiset of
conditions, listed in different orders, are unequal and feed different
data streams to the hasher. -/
theorem equality_order_sensitive_on_conditions :
    (ConditionalRequirement.new
        [Condition.versionSetId ⟨0⟩, Condition.extra ⟨0⟩]
        (Requirement.single ⟨0⟩)).requirement =
      (ConditionalRequirement.new
          [Condition.extra ⟨0⟩, Condition.versionSetId ⟨0⟩]
          (Requirement.single ⟨0⟩)).requirement ∧
    ((ConditionalRequirement.new
        [Condition.versionSetId ⟨0⟩, Condition.extra ⟨0⟩]
        (Requirement.single ⟨0⟩)).conditions : Multiset Condition) =
      ((ConditionalRequirement.new
          [Condition.extra ⟨0⟩, Condition.versionSetId ⟨0⟩]
          (Requirement.single ⟨0⟩)).conditions : Multiset Condition) ∧
    ConditionalRequirement.new
        [Condition.versionSetId ⟨0⟩, Condition.extra ⟨0⟩]
        (Requirement.single ⟨0⟩) ≠
      ConditionalRequirement.new
          [Condition.extra ⟨0⟩, Condition.versionSetId ⟨0⟩]
          (Requirement.single ⟨0⟩) ∧
    (ConditionalRequirement.new
        [Condition.versionSetId ⟨0⟩, Condition.extra ⟨0⟩]
        (Requirement.single ⟨0⟩)).hashStream ≠
      (ConditionalRequirement.new
          [Condition.extra ⟨0⟩, Condition.versionSetId ⟨0⟩]
          (Requirement.single ⟨0⟩)).hashStream := by
  exact ⟨rfl, by decide, by decide, by decide⟩

end Resolvo
